import Mathlib

set_option autoImplicit false

/-!
Shallow embedding of the mashup pipeline in `mashup_core.py`
(repository keshavakumar12/Mashup) together with proofs of the
specification's claims about it.

Strings are modelled as explicit character lists (`Str := List Char`) so that
character-level operations (Python `str.strip`, `pathlib` suffix handling,
the email regular expression) are directly computable.  External collaborators
(the search/download service, the transcoding backend, the filesystem) are
modelled as oracle data threaded through the definitions: each candidate or
file carries the outcomes the external world would produce for it, and the
embedded control flow is a faithful transcription of the Python control flow.
-/

namespace Mashup

/-- Strings as explicit character lists. -/
abbrev Str := List Char

/-- Characters stripped by Python's `str.strip()` and matched by the regex
class `\s` (ASCII range). -/
def isPySpace (c : Char) : Bool :=
  c = ' ' || c = '\t' || c = '\n' || c = '\r' || c = '\x0b' || c = '\x0c'

/-- Python `str.strip()`, left side. -/
def stripLeft (s : Str) : Str := s.dropWhile isPySpace

/-- Python `str.strip()`, right side. -/
def stripRight (s : Str) : Str := (s.reverse.dropWhile isPySpace).reverse

/-- Python `str.strip()`. -/
def pyStrip (s : Str) : Str := stripRight (stripLeft s)

/-- Embeds `_coerce_positive_int` (mashup_core.py lines 31-38).  The raw value
is `none` when `int(value)` raises (non-numeric input), `some v` when it
parses to the integer `v`. -/
def coerce_positive_int (value : Option Int) (name : Str) : Except Str Int :=
  match value with
  | none => .error (name ++ " must be an integer.".toList)
  | some as_int =>
      if as_int ≤ 0 then .error (name ++ " must be greater than 0.".toList)
      else .ok as_int

/-- Embeds `validate_inputs` (mashup_core.py lines 41-47): reject an empty or
all-whitespace singer, `n_videos ≤ 10`, and `clip_seconds ≤ 20`, in that
order. -/
def validate_inputs (singer : Str) (n_videos clip_seconds : Int) : Except Str Unit :=
  if singer = [] ∨ pyStrip singer = [] then
    .error "Singer name cannot be empty.".toList
  else if n_videos ≤ 10 then
    .error "Number of videos must be greater than 10.".toList
  else if clip_seconds ≤ 20 then
    .error "Audio duration must be greater than 20 seconds.".toList
  else
    .ok ()

/-! ## Audio Fetcher (`download_audio_from_search`, mashup_core.py lines 82-160) -/

/-- One poll of the downloaded file in `_wait_for_stable`: `none` when
`path.exists()` is false, `some size` when `path.stat().st_size` returns
`size`. -/
abbrev SizePoll := Option Int

/-- Embeds the loop body of `_wait_for_stable` (mashup_core.py lines 90-101).
`polls` are the outcomes of the successive polls, one per remaining attempt;
`last_size` starts at `-1`.  Returns `true` when the function returns
normally, `false` when it exhausts its attempts and raises `MashupError`. -/
def waitForStableAux : List SizePoll → Int → Bool
  | [], _ => false
  | none :: rest, last_size => waitForStableAux rest last_size
  | some size :: rest, last_size =>
      if size = last_size ∧ 0 < size then true
      else waitForStableAux rest size

/-- Embeds `_wait_for_stable` (mashup_core.py lines 90-101): `polls` lists the
outcome of each of the `attempts` polls the loop would perform. -/
def wait_for_stable (polls : List SizePoll) : Bool :=
  waitForStableAux polls (-1)

/-- A search candidate together with the outcomes the external world would
produce for it: `url`/`vid` are `entry.get("webpage_url")` / `entry.get("id")`;
`downloadOk` is whether `ydl.download` completes without raising;
`matchedMp3` / `matchedAny` are the results of the globs `{id}.mp3` and
`{id}.*`; `polls` drives the stability wait on the matched file. -/
structure Candidate where
  url : Option Str
  vid : Option Str
  downloadOk : Bool
  matchedMp3 : List Str
  matchedAny : List Str
  polls : List SizePoll
  deriving DecidableEq

/-- Embeds one iteration of the download loop (mashup_core.py lines 105-153),
apart from the early-exit length check: `some path` when the candidate
contributes a stabilized file to `downloaded`, `none` when it is skipped.
Python's `if not url or not video_id: continue` skips both missing and
empty-string values. -/
def processCandidate (c : Candidate) : Option Str :=
  match c.url, c.vid with
  | some u, some v =>
      if u = [] ∨ v = [] then none
      else if c.downloadOk then
        match (if c.matchedMp3 ≠ [] then c.matchedMp3 else c.matchedAny) with
        | [] => none
        | target :: _ => if wait_for_stable c.polls then some target else none
      else none
  | _, _ => none

/-- Embeds the download loop of `download_audio_from_search` (mashup_core.py
lines 104-153), accumulator style: stop as soon as `n_videos` files are
collected, otherwise process the next candidate and append on success. -/
def fetchLoop : List Candidate → Nat → List Str → List Str
  | [], _, downloaded => downloaded
  | c :: rest, n_videos, downloaded =>
      if n_videos ≤ downloaded.length then downloaded
      else
        match processCandidate c with
        | some path => fetchLoop rest n_videos (downloaded ++ [path])
        | none => fetchLoop rest n_videos downloaded

/-- The fatal errors `download_audio_from_search` can raise (both are
`MashupError` in the source, distinguished by their messages). -/
inductive FetchError where
  /-- "No videos found for the provided singer name." (line 88) -/
  | noCandidatesFound
  /-- "Downloaded only {got} of {requested} requested videos. …" (lines 156-159) -/
  | insufficientDownloads (got requested : Nat)
  deriving DecidableEq

/-- Embeds `download_audio_from_search` (mashup_core.py lines 82-160).  The
candidate list stands for the (already filtered) result of
`_search_candidates`; the workspace bookkeeping is not observable here. -/
def download_audio_from_search (candidates : List Candidate) (n_videos : Nat) :
    Except FetchError (List Str) :=
  if candidates = [] then .error .noCandidatesFound
  else if (fetchLoop candidates n_videos []).length < n_videos then
    .error (.insufficientDownloads (fetchLoop candidates n_videos []).length n_videos)
  else
    .ok (fetchLoop candidates n_videos [])

/-! ## Output path handling (`pathlib` suffix semantics)

The output path is modelled by its final name component.  `pySuffix` and
`withSuffix` transcribe CPython's `PurePath.suffix` and
`PurePath.with_suffix`: the suffix is the part of the name from its last dot
on, provided that dot is neither the first nor the last character of the
name; `with_suffix` rejects an empty name, otherwise drops the old suffix (if
any) and appends the new one. -/

/-- Index of the last occurrence of a dot in the name, if any. -/
def lastDotIdx : Str → Option Nat
  | [] => none
  | c :: rest =>
      match lastDotIdx rest with
      | some i => some (i + 1)
      | none => if c = '.' then some 0 else none

/-- CPython `PurePath.suffix` on the final name component. -/
def pySuffix (name : Str) : Str :=
  match lastDotIdx name with
  | some i => if 0 < i ∧ i + 1 < name.length then name.drop i else []
  | none => []

/-- CPython `PurePath.stem` on the final name component: the name with its
suffix (if any) removed. -/
def pyStem (name : Str) : Str :=
  name.take (name.length - (pySuffix name).length)

/-- CPython `PurePath.with_suffix` (called at mashup_core.py line 269 with the
constant, well-formed suffix `".mp3"`): `ValueError` on an empty name,
otherwise replace the old suffix, or append when there is none. -/
def withSuffix (name suf : Str) : Except Str Str :=
  if name = [] then .error "empty name".toList
  else if pySuffix name = [] then .ok (name ++ suf)
  else .ok (name.take (name.length - (pySuffix name).length) ++ suf)

/-- Python `str.lower()` (ASCII). -/
def toLowerStr (s : Str) : Str := s.map Char.toLower

/-- Embeds the output-path normalization of `create_mashup` (mashup_core.py
lines 267-269): keep the path when its suffix lowercased is `".mp3"`,
otherwise replace the suffix with `".mp3"`. -/
def normalizeOutputPath (name : Str) : Except Str Str :=
  if toLowerStr (pySuffix name) = ".mp3".toList then .ok name
  else withSuffix name ".mp3".toList

/-! ## Clip Trimmer (`trim_audios`, mashup_core.py lines 163-210) -/

/-- One open attempt in `_wait_for_unlock`: `true` when `file_path.open("rb")`
succeeds, `false` when it raises `PermissionError`. -/
abbrev OpenPoll := Bool

/-- Embeds `_wait_for_unlock` (mashup_core.py lines 170-177): `opens` lists
the outcome of each of the `attempts` open attempts; the loop returns at the
first success and raises `PermissionError` when every attempt fails. -/
def wait_for_unlock (opens : List OpenPoll) : Bool := opens.any id

/-- A fetched file as seen by the Clip Trimmer, with the outcomes the
external world would produce for it: `path` is the input path, `opens`
drives the lock wait, `trimOk` is whether `subprocess.run(cmd, check=True)`
completes without raising. -/
structure TrimItem where
  path : Str
  opens : List OpenPoll
  trimOk : Bool
  deriving DecidableEq

/-- The name of the trimmed clip produced for an input `path`
(`f"{path.stem}_trimmed.mp3"`, mashup_core.py line 182), relative to the
trim target directory. -/
def trimmedName (path : Str) : Str := pyStem path ++ "_trimmed.mp3".toList

/-- Whether the `try` block of the trim loop completes for this item: the
lock wait must succeed and the transcoding process must exit cleanly. -/
def trimItemOk (it : TrimItem) : Bool := wait_for_unlock it.opens && it.trimOk

/-- Embeds the loop of `trim_audios` (mashup_core.py lines 179-206),
accumulator style: append the trimmed clip on success, log and skip the item
on any failure. -/
def trimLoop : List TrimItem → List Str → List Str
  | [], trimmed_files => trimmed_files
  | it :: rest, trimmed_files =>
      if trimItemOk it then trimLoop rest (trimmed_files ++ [trimmedName it.path])
      else trimLoop rest trimmed_files

/-- The fatal error of `trim_audios` ("No audio files were trimmed.",
mashup_core.py line 209). -/
inductive TrimError where
  | noClipsProduced
  deriving DecidableEq

/-- Embeds `trim_audios` (mashup_core.py lines 163-210). -/
def trim_audios (items : List TrimItem) : Except TrimError (List Str) :=
  if trimLoop items [] = [] then .error .noClipsProduced
  else .ok (trimLoop items [])

/-! ## Mashup Assembler (`merge_audios`, mashup_core.py lines 213-254) -/

/-- The fatal errors of `merge_audios`: an empty clip list
("No trimmed audio files to merge.", line 217), or a failing concatenation
process (`subprocess.run(cmd, check=True)` raising, line 247). -/
inductive MergeError where
  | noClipsToMerge
  | concatFailed
  deriving DecidableEq

/-- Observable manifest bookkeeping of one `merge_audios` call:
whether the temporary manifest file was written, whether its deletion was
attempted (`list_path.unlink()` in the `finally` block, lines 248-252), and
whether it still exists afterwards. -/
structure MergeTrace where
  manifestWritten : Bool
  unlinkAttempted : Bool
  manifestRemains : Bool
  deriving DecidableEq

/-- Embeds `merge_audios` (mashup_core.py lines 213-254).  `concatOk` is
whether the concatenation process exits cleanly; `unlinkOk` is whether
deleting the manifest succeeds (its failure is swallowed by
`except OSError: pass`). -/
def merge_audios (trimmed : List Str) (output_path : Str) (concatOk unlinkOk : Bool) :
    Except MergeError Str × MergeTrace :=
  if trimmed = [] then (.error .noClipsToMerge, ⟨false, false, false⟩)
  else
    ((if concatOk then .ok output_path else .error .concatFailed),
     ⟨true, true, !unlinkOk⟩)

/-! ## Backend Locator (`setup_audio_backend`, mashup_core.py lines 50-65)

The process-visible state the function touches is the five environment
entries it writes and the fetch counter of the external resolver.
Modelled from the spec: the external `imageio_ffmpeg.get_ffmpeg_exe` is an
external collaborator that prefers an executable already designated in the
environment (the `IMAGEIO_FFMPEG_EXE` entry) and otherwise obtains
(download/cache) a local copy, counted as one fetch. -/

structure BackendEnv where
  ffmpegBinary : Option Str
  ffprobeBinary : Option Str
  imageioExe : Option Str
  ffmpegLocation : Option Str
  path : Str
  fetchCount : Nat
  deriving DecidableEq

/-- The external resolver: prefer the executable already designated in the
environment, otherwise resolve to `resolver` and count one fetch. -/
def get_ffmpeg_exe (resolver : Str) (e : BackendEnv) : Str × BackendEnv :=
  match e.imageioExe with
  | some p => (p, e)
  | none => (resolver, { e with fetchCount := e.fetchCount + 1 })

/-- Python `os.environ.setdefault`. -/
def setdefault (cur : Option Str) (v : Str) : Option Str := some (cur.getD v)

/-- Embeds `setup_audio_backend` (mashup_core.py lines 50-65): resolve the
backend executable, `setdefault` the four environment entries to it, and
unconditionally prepend its directory to `PATH`.  The source returns `None`;
the model additionally exposes the resolved path (first component), which the
source binds as `ffmpeg_path`. -/
def setup_audio_backend (resolver sep : Str) (dirOf : Str → Str) (e : BackendEnv) :
    Str × BackendEnv :=
  let r := get_ffmpeg_exe resolver e
  (r.1,
   { ffmpegBinary := setdefault r.2.ffmpegBinary r.1
     ffprobeBinary := setdefault r.2.ffprobeBinary r.1
     imageioExe := setdefault r.2.imageioExe r.1
     ffmpegLocation := setdefault r.2.ffmpegLocation r.1
     path := dirOf r.1 ++ sep ++ r.2.path
     fetchCount := r.2.fetchCount })

/-! ## Email validation (`is_valid_email`, mashup_core.py lines 287-291) -/

/-- Split a string at its first `@`, returning the parts before and after it
(both excluding the `@`). -/
def splitAtFirstAt : Str → Option (Str × Str)
  | [] => none
  | c :: rest =>
      if c = '@' then some ([], rest)
      else
        match splitAtFirstAt rest with
        | some (a, b) => some (c :: a, b)
        | none => none

/-- Whether every character avoids `@` and whitespace (the character class
`[^@\s]` of the email regex). -/
def noAtOrSpace (s : Str) : Bool := s.all (fun c => c ≠ '@' && !isPySpace c)

/-- Whether the string has a dot that is neither its first nor its last
character. -/
def hasInnerDot (s : Str) : Bool := decide ('.' ∈ (s.drop 1).dropLast)

/-- Executable transcription of `EMAIL_REGEX.match` for the pattern
`^[^@\s]+@[^@\s]+\.[^@\s]+$` (mashup_core.py line 287): with backtracking the
pattern matches a string exactly when it splits at its (unique) first `@`
into a nonempty local part with no `@` or whitespace and a remainder with no
`@` or whitespace containing a dot that is neither its first nor its last
character.  (`is_valid_email` only ever applies this to stripped strings, so
the `$`-before-trailing-newline subtlety of `re` does not arise.) -/
def emailRegexMatch (s : Str) : Bool :=
  match splitAtFirstAt s with
  | none => false
  | some (a, d) => a ≠ [] && noAtOrSpace a && noAtOrSpace d && hasInnerDot d

/-- Embeds `is_valid_email` (mashup_core.py lines 290-291):
`bool(email and EMAIL_REGEX.match(email.strip()))`. -/
def is_valid_email (email : Str) : Bool :=
  email ≠ [] && emailRegexMatch (pyStrip email)

/-! ## Mashup Orchestrator (`create_mashup`, mashup_core.py lines 257-284) -/

/-- The external effects `create_mashup` triggers, in order: backend
location (`setup_audio_backend`), workspace creation
(`tempfile.TemporaryDirectory`), the search/download stage, the trim stage,
and the assembly stage. -/
inductive Effect where
  | locateBackend
  | createWorkspace
  | searchAndDownload
  | trimClips
  | assemble
  deriving DecidableEq

/-- The errors `create_mashup` can raise: `invalidRequest` stands for the
`ValueError`s raised by `_coerce_positive_int`, `validate_inputs`, and
`Path.with_suffix`; the others wrap the stage-level `MashupError`s. -/
inductive PipelineError where
  | invalidRequest (msg : Str)
  | fetchFailed (e : FetchError)
  | trimFailed (e : TrimError)
  | mergeFailed (e : MergeError)
  deriving DecidableEq

/-- The oracle data for one run: the filtered candidate list
`_search_candidates` would return, the lock/transcode outcomes for each
downloaded path, and the outcomes of the concatenation and of the manifest
deletion. -/
structure World where
  candidates : List Candidate
  trimOutcome : Str → List OpenPoll × Bool
  concatOk : Bool
  unlinkOk : Bool

/-- Embeds `create_mashup` (mashup_core.py lines 257-284): coerce both
numeric fields, validate, normalize the output path, then locate the
backend, create the workspace, and run fetch → trim → assemble.  The second
component records which external stages were entered, in order. -/
def create_mashup (w : World) (singer : Str) (nRaw clipRaw : Option Int)
    (outName : Str) : Except PipelineError Str × List Effect :=
  match coerce_positive_int nRaw "Number of videos".toList with
  | .error m => (.error (.invalidRequest m), [])
  | .ok n_videos =>
  match coerce_positive_int clipRaw "Audio duration".toList with
  | .error m => (.error (.invalidRequest m), [])
  | .ok clip_seconds =>
  match validate_inputs singer n_videos clip_seconds with
  | .error m => (.error (.invalidRequest m), [])
  | .ok () =>
  match normalizeOutputPath outName with
  | .error m => (.error (.invalidRequest m), [])
  | .ok output_path =>
  match download_audio_from_search w.candidates n_videos.toNat with
  | .error e =>
      (.error (.fetchFailed e),
       [.locateBackend, .createWorkspace, .searchAndDownload])
  | .ok downloads =>
  match trim_audios (downloads.map fun p =>
      TrimItem.mk p (w.trimOutcome p).1 (w.trimOutcome p).2) with
  | .error e =>
      (.error (.trimFailed e),
       [.locateBackend, .createWorkspace, .searchAndDownload, .trimClips])
  | .ok trimmed =>
  match (merge_audios trimmed output_path w.concatOk w.unlinkOk).1 with
  | .error e =>
      (.error (.mergeFailed e),
       [.locateBackend, .createWorkspace, .searchAndDownload, .trimClips, .assemble])
  | .ok finalPath =>
      (.ok finalPath,
       [.locateBackend, .createWorkspace, .searchAndDownload, .trimClips, .assemble])

/-! ## Specification-side definitions and concrete scenario data -/

/-- Follows the spec's words (§4.4 step 5): accept "once two consecutive
observed sizes are equal and nonzero".  The argument is the list of observed
sizes (the polls at which the file existed), in order; the function decides
whether some observation equals its predecessor and is positive. -/
def consecutiveStablePair : List Int → Bool
  | a :: b :: rest => if b = a ∧ 0 < b then true else consecutiveStablePair (b :: rest)
  | _ => false

/-- The path the demo candidate's extracted audio ends up at. -/
def okPath : Str := "v.mp3".toList

/-- A candidate whose download, extraction, and stabilization all succeed. -/
def okCand : Candidate :=
  ⟨some "u".toList, some "v".toList, true, [okPath], [], [some 5, some 5]⟩

/-- A candidate whose download raises and is skipped. -/
def badCand : Candidate :=
  ⟨some "u".toList, some "w".toList, false, [], [], []⟩

/-- A candidate whose downloaded file never reaches a stable size. -/
def unstableCand : Candidate :=
  ⟨some "u".toList, some "x".toList, true, ["x.mp3".toList], [], [some 1, some 2, some 3]⟩

/-- A world with no candidates and trivially succeeding downstream stages. -/
def W0 : World := ⟨[], fun _ => ([], true), true, true⟩

/-- A starting environment with none of the backend variables set. -/
def envStart : BackendEnv := ⟨none, none, none, none, "/usr/bin".toList, 0⟩

/-- A concrete directory resolver for the backend executable. -/
def demoDirOf : Str → Str := fun _ => "/ff".toList

/-- A fetched file whose trim succeeds. -/
def itemA : TrimItem := ⟨"a.mp3".toList, [true], true⟩

/-- A fetched file whose trim fails (transcoding process raises). -/
def itemB : TrimItem := ⟨"b.mp3".toList, [true], false⟩

/-- A second fetched file whose trim succeeds. -/
def itemC : TrimItem := ⟨"c.mp3".toList, [true], true⟩

/-! ## Helper lemmas -/

theorem pyStrip_nil : pyStrip [] = [] := rfl

theorem fetchLoop_length_le (candidates : List Candidate) (n : Nat) :
    ∀ acc : List Str, acc.length ≤ n → (fetchLoop candidates n acc).length ≤ n := by
  induction candidates with
  | nil => intro acc h; exact h
  | cons c rest ih =>
      intro acc h
      unfold fetchLoop
      split
      · exact h
      · next hlt =>
          cases hp : processCandidate c with
          | some path =>
              simp only [hp]
              exact ih (acc ++ [path]) (by simp; omega)
          | none =>
              simp only [hp]
              exact ih acc h

theorem fetchLoop_of_le (rest : List Candidate) (n : Nat) (acc : List Str)
    (h : n ≤ acc.length) : fetchLoop rest n acc = acc := by
  cases rest with
  | nil => rfl
  | cons c r => unfold fetchLoop; rw [if_pos h]

theorem waitForStableAux_eq_consec (polls : List SizePoll) :
    ∀ last : Int,
      waitForStableAux polls last = consecutiveStablePair (last :: polls.filterMap id) := by
  induction polls with
  | nil => intro last; rfl
  | cons o rest ih =>
      intro last
      cases o with
      | none =>
          simp only [waitForStableAux, List.filterMap_cons_none]
          exact ih last
      | some s =>
          simp only [waitForStableAux, List.filterMap_cons_some]
          by_cases h : s = last ∧ 0 < s
          · rw [if_pos h]
            show _ = consecutiveStablePair (last :: s :: rest.filterMap id)
            unfold consecutiveStablePair
            rw [if_pos h]
          · rw [if_neg h]
            show _ = consecutiveStablePair (last :: s :: rest.filterMap id)
            unfold consecutiveStablePair
            rw [if_neg h]
            exact ih s

theorem consecutiveStablePair_neg_one (l : List Int) :
    consecutiveStablePair (-1 :: l) = consecutiveStablePair l := by
  cases l with
  | nil => rfl
  | cons a r =>
      show (if a = -1 ∧ 0 < a then true else consecutiveStablePair (a :: r)) =
        consecutiveStablePair (a :: r)
      rw [if_neg (by rintro ⟨h1, h2⟩; omega)]

theorem validate_inputs_ok_iff (singer : Str) (n c : Int) :
    validate_inputs singer n c = .ok () ↔
      (pyStrip singer ≠ [] ∧ 10 < n ∧ 20 < c) := by
  unfold validate_inputs
  split_ifs with h1 h2 h3
  · simp only [false_iff]
    rintro ⟨hs, -, -⟩
    rcases h1 with h1 | h1
    · exact hs (h1 ▸ pyStrip_nil)
    · exact hs h1
  · constructor
    · intro h; cases h
    · rintro ⟨-, hn, -⟩; omega
  · constructor
    · intro h; cases h
    · rintro ⟨-, -, hc⟩; omega
  · constructor
    · intro _
      exact ⟨fun hs => h1 (Or.inr hs), by omega, by omega⟩
    · intro _; rfl

theorem coerce_positive_int_ok (value : Option Int) (name : Str) (n : Int)
    (h : coerce_positive_int value name = .ok n) : value = some n ∧ 0 < n := by
  cases value with
  | none => exact Except.noConfusion h
  | some v =>
      have h' : (if v ≤ 0
          then (Except.error (name ++ " must be greater than 0.".toList) : Except Str Int)
          else .ok v) = .ok n := h
      by_cases hle : v ≤ 0
      · rw [if_pos hle] at h'; cases h'
      · rw [if_neg hle] at h'
        injection h' with h''
        subst h''
        exact ⟨rfl, by omega⟩

/-! ## C2: the Input Validator's acceptance condition -/

/-- C2: `validate_inputs` accepts a request iff the singer string is
non-empty and not all-whitespace, the video count exceeds 10, and the clip
duration exceeds 20; every input violating any of these fails with a typed
error. -/
theorem validate_inputs_accepts_iff (singer : Str) (n c : Int) :
    (validate_inputs singer n c = .ok () ↔ (pyStrip singer ≠ [] ∧ 10 < n ∧ 20 < c)) ∧
    ((pyStrip singer = [] ∨ n ≤ 10 ∨ c ≤ 20) →
      ∃ msg, validate_inputs singer n c = .error msg) := by
  refine ⟨validate_inputs_ok_iff singer n c, ?_⟩
  intro hbad
  cases hres : validate_inputs singer n c with
  | error msg => exact ⟨msg, rfl⟩
  | ok u =>
      cases u
      have := (validate_inputs_ok_iff singer n c).mp hres
      rcases this with ⟨hs, hn, hc⟩
      rcases hbad with h | h | h
      · exact absurd h hs
      · omega
      · omega

theorem validate_inputs_accepts_iff_witness :
    (pyStrip "   ".toList = [] ∨ (11 : Int) ≤ 10 ∨ (21 : Int) ≤ 20) ∧
    (∃ msg, validate_inputs "   ".toList 11 21 = .error msg) ∧
    validate_inputs "X".toList 11 21 = .ok () :=
  ⟨Or.inl (by decide),
   (validate_inputs_accepts_iff "   ".toList 11 21).2 (Or.inl (by decide)),
   (validate_inputs_accepts_iff "X".toList 11 21).1.mpr
     ⟨by decide, by norm_num, by norm_num⟩⟩

/-! ## C1: the Audio Fetcher's count guarantee -/

/-- C1 counterexample: on the empty candidate list with target 1, fewer
files than the target were collected, yet `download_audio_from_search` does
not raise `InsufficientDownloads` reporting the counts — it raises
`NoCandidatesFound` instead. -/
theorem download_audio_empty_counterexample :
    (fetchLoop ([] : List Candidate) 1 []).length < 1 ∧
    download_audio_from_search [] 1 = Except.error FetchError.noCandidatesFound ∧
    download_audio_from_search [] 1 ≠
      Except.error
        (FetchError.insufficientDownloads (fetchLoop ([] : List Candidate) 1 []).length 1) := by
  refine ⟨by decide, rfl, ?_⟩
  intro h
  rw [show download_audio_from_search [] 1 = Except.error FetchError.noCandidatesFound from rfl]
    at h
  injection h with h'
  cases h'

/-- C1 (amended): for every NON-EMPTY candidate list and every target count,
`download_audio_from_search` returns exactly `target` files whenever it
returns normally (in particular never more), and whenever the loop collects
fewer than `target` files it raises `InsufficientDownloads` reporting how
many of how many requested were obtained; on the empty candidate list it
raises `NoCandidatesFound` instead (see the counterexample). -/
theorem download_audio_count (candidates : List Candidate) (n : Nat)
    (hne : candidates ≠ []) :
    (∀ files, download_audio_from_search candidates n = .ok files → files.length = n) ∧
    ((fetchLoop candidates n []).length < n →
      download_audio_from_search candidates n =
        .error (.insufficientDownloads (fetchLoop candidates n []).length n)) := by
  constructor
  · intro files hok
    unfold download_audio_from_search at hok
    rw [if_neg hne] at hok
    by_cases hlt : (fetchLoop candidates n []).length < n
    · rw [if_pos hlt] at hok; cases hok
    · rw [if_neg hlt] at hok
      injection hok with h'
      subst h'
      have hle := fetchLoop_length_le candidates n [] (by simp)
      omega
  · intro hlt
    unfold download_audio_from_search
    rw [if_neg hne, if_pos hlt]

theorem download_audio_count_witness :
    ([okCand, okCand, badCand] ≠ ([] : List Candidate)) ∧
    download_audio_from_search [okCand, okCand, badCand] 2 = .ok [okPath, okPath] ∧
    ([okPath, okPath] : List Str).length = 2 ∧
    (fetchLoop [okCand] 2 []).length < 2 ∧
    download_audio_from_search [okCand] 2 =
      Except.error (.insufficientDownloads (fetchLoop [okCand] 2 []).length 2) :=
  ⟨by decide, by rfl,
   (download_audio_count [okCand, okCand, badCand] 2 (by decide)).1 [okPath, okPath] (by rfl),
   by decide,
   (download_audio_count [okCand] 2 (by decide)).2 (by decide)⟩

/-! ## C4: the stability wait -/

/-- C4: the stability wait accepts a downloaded file iff, within its attempt
budget, two consecutive observed sizes are equal and nonzero; and a
candidate whose file never stabilizes is skipped by the download loop — the
run continues with the remaining candidates rather than failing. -/
theorem wait_for_stable_iff_and_skip (polls : List SizePoll) (c : Candidate)
    (rest : List Candidate) (n : Nat) (acc : List Str) :
    (wait_for_stable polls = true ↔
      consecutiveStablePair (polls.filterMap id) = true) ∧
    (c.url.isSome = true → c.vid.isSome = true → c.downloadOk = true →
      wait_for_stable c.polls = false →
      processCandidate c = none ∧
      fetchLoop (c :: rest) n acc = fetchLoop rest n acc) := by
  constructor
  · rw [wait_for_stable, waitForStableAux_eq_consec, consecutiveStablePair_neg_one]
  · intro h1 h2 h3 h4
    obtain ⟨u, hu⟩ := Option.isSome_iff_exists.mp h1
    obtain ⟨v, hv⟩ := Option.isSome_iff_exists.mp h2
    have hnone : processCandidate c = none := by
      simp only [processCandidate, hu, hv, h3, if_true]
      by_cases hemp : u = [] ∨ v = []
      · rw [if_pos hemp]
      · rw [if_neg hemp]
        cases hm : (if c.matchedMp3 ≠ [] then c.matchedMp3 else c.matchedAny) with
        | nil => rfl
        | cons t ts => simp [h4]
    refine ⟨hnone, ?_⟩
    by_cases hle : n ≤ acc.length
    · rw [fetchLoop_of_le (c :: rest) n acc hle, fetchLoop_of_le rest n acc hle]
    · simp only [fetchLoop, hnone, if_neg hle]

theorem trimLoop_eq (items : List TrimItem) :
    ∀ acc : List Str,
      trimLoop items acc =
        acc ++ (items.filter trimItemOk).map (fun it => trimmedName it.path) := by
  induction items with
  | nil => intro acc; simp [trimLoop]
  | cons it rest ih =>
      intro acc
      by_cases h : trimItemOk it = true
      · simp only [trimLoop, if_pos h]
        rw [ih]
        simp [List.filter_cons, h]
      · simp only [trimLoop, if_neg h]
        rw [ih]
        simp [List.filter_cons, h]

/-- C3: whenever `trim_audios` returns normally, its output is exactly the
input list in input order with the failed items removed, one trimmed clip
per successfully processed input — an order-preserving map over the
successful subsequence, with no reordering. -/
theorem trim_audios_order (items : List TrimItem) (files : List Str)
    (h : trim_audios items = .ok files) :
    files = (items.filter trimItemOk).map (fun it => trimmedName it.path) := by
  unfold trim_audios at h
  split_ifs at h with h0
  injection h with h'
  subst h'
  rw [trimLoop_eq items []]
  simp

theorem trim_audios_order_witness :
    trim_audios [itemA, itemB, itemC] =
      .ok ["a_trimmed.mp3".toList, "c_trimmed.mp3".toList] ∧
    ["a_trimmed.mp3".toList, "c_trimmed.mp3".toList] =
      (([itemA, itemB, itemC].filter trimItemOk).map fun it => trimmedName it.path) :=
  ⟨by rfl, trim_audios_order [itemA, itemB, itemC] _ (by rfl)⟩

/-- C8: for every non-empty clip list, `merge_audios` writes the manifest and
attempts its deletion whether or not the concatenation succeeded; when the
deletion succeeds the manifest is gone, and the call's result does not
depend on whether the deletion succeeded — a failed deletion is never
reported as a pipeline error. -/
theorem merge_audios_cleanup (trimmed : List Str) (out : Str) (concatOk unlinkOk : Bool)
    (h : trimmed ≠ []) :
    (merge_audios trimmed out concatOk unlinkOk).2.manifestWritten = true ∧
    (merge_audios trimmed out concatOk unlinkOk).2.unlinkAttempted = true ∧
    (unlinkOk = true →
      (merge_audios trimmed out concatOk unlinkOk).2.manifestRemains = false) ∧
    (merge_audios trimmed out concatOk unlinkOk).1 =
      (merge_audios trimmed out concatOk true).1 := by
  refine ⟨?_, ?_, ?_, ?_⟩ <;> simp [merge_audios, h]

theorem merge_audios_cleanup_witness :
    (["c".toList] ≠ ([] : List Str)) ∧
    (merge_audios ["c".toList] "o".toList false false).2.unlinkAttempted = true ∧
    (merge_audios ["c".toList] "o".toList false false).1 =
      (merge_audios ["c".toList] "o".toList false true).1 :=
  ⟨by decide,
   (merge_audios_cleanup ["c".toList] "o".toList false false (by decide)).2.1,
   (merge_audios_cleanup ["c".toList] "o".toList false false (by decide)).2.2.2⟩

theorem wait_for_stable_iff_and_skip_witness :
    (unstableCand.url.isSome = true ∧ unstableCand.vid.isSome = true ∧
     unstableCand.downloadOk = true ∧ wait_for_stable unstableCand.polls = false) ∧
    (processCandidate unstableCand = none ∧
     fetchLoop [unstableCand, okCand] 1 [] = fetchLoop [okCand] 1 []) :=
  ⟨⟨by decide, by decide, by decide, by decide⟩,
   (wait_for_stable_iff_and_skip [] unstableCand [okCand] 1 []).2
     (by decide) (by decide) (by decide) (by decide)⟩

/-! ## C5: the Backend Locator across two calls -/

/-- C5 counterexample: starting from an environment with no backend
variables set, calling `setup_audio_backend` twice leaves the
process-visible state different from what one call leaves — the second call
prepends the backend directory to `PATH` again. -/
theorem setup_audio_backend_state_counterexample :
    (setup_audio_backend "/ff/ffmpeg".toList ":".toList demoDirOf
        (setup_audio_backend "/ff/ffmpeg".toList ":".toList demoDirOf envStart).2).2 ≠
      (setup_audio_backend "/ff/ffmpeg".toList ":".toList demoDirOf envStart).2 := by
  decide

/-- C5 (amended): calling the Backend Locator twice in the same run resolves
the same executable path both times and performs the network/cache fetch at
most once; the second call leaves every backend environment entry except
`PATH` exactly as the first call left it, but prepends the backend directory
to `PATH` a second time, so the process-visible state after the second call
is NOT the same as after the first. -/
theorem setup_audio_backend_twice (resolver sep : Str) (dirOf : Str → Str)
    (e : BackendEnv) :
    (setup_audio_backend resolver sep dirOf
        (setup_audio_backend resolver sep dirOf e).2).1 =
      (setup_audio_backend resolver sep dirOf e).1 ∧
    (setup_audio_backend resolver sep dirOf
        (setup_audio_backend resolver sep dirOf e).2).2.fetchCount =
      (setup_audio_backend resolver sep dirOf e).2.fetchCount ∧
    (setup_audio_backend resolver sep dirOf e).2.fetchCount ≤ e.fetchCount + 1 ∧
    (setup_audio_backend resolver sep dirOf
        (setup_audio_backend resolver sep dirOf e).2).2.ffmpegBinary =
      (setup_audio_backend resolver sep dirOf e).2.ffmpegBinary ∧
    (setup_audio_backend resolver sep dirOf
        (setup_audio_backend resolver sep dirOf e).2).2.ffprobeBinary =
      (setup_audio_backend resolver sep dirOf e).2.ffprobeBinary ∧
    (setup_audio_backend resolver sep dirOf
        (setup_audio_backend resolver sep dirOf e).2).2.imageioExe =
      (setup_audio_backend resolver sep dirOf e).2.imageioExe ∧
    (setup_audio_backend resolver sep dirOf
        (setup_audio_backend resolver sep dirOf e).2).2.ffmpegLocation =
      (setup_audio_backend resolver sep dirOf e).2.ffmpegLocation ∧
    (setup_audio_backend resolver sep dirOf
        (setup_audio_backend resolver sep dirOf e).2).2.path =
      dirOf (setup_audio_backend resolver sep dirOf e).1 ++ sep ++
        (setup_audio_backend resolver sep dirOf e).2.path := by
  cases h : e.imageioExe <;>
    simp [setup_audio_backend, get_ffmpeg_exe, setdefault, h]

/-! ## C6 and C9: output-path normalization -/

theorem lastDotIdx_append_of_some (base tail : Str) (i : Nat)
    (h : lastDotIdx tail = some i) :
    lastDotIdx (base ++ tail) = some (base.length + i) := by
  induction base with
  | nil => simpa using h
  | cons c b ih =>
      show (match lastDotIdx (b ++ tail) with
            | some j => some (j + 1)
            | none => if c = '.' then some 0 else none) = some ((c :: b).length + i)
      simp only [ih, List.length_cons]
      congr 1
      omega

theorem pySuffix_append_mp3 (base : Str) (hb : base ≠ []) :
    pySuffix (base ++ ".mp3".toList) = ".mp3".toList := by
  have h1 : lastDotIdx (base ++ ".mp3".toList) = some base.length := by
    simpa using lastDotIdx_append_of_some base ".mp3".toList 0 (by decide)
  have hlen : 0 < base.length := List.length_pos.mpr hb
  have h4 : (".mp3".toList).length = 4 := by decide
  simp only [pySuffix, h1]
  rw [if_pos ⟨hlen, by rw [List.length_append]; omega⟩]
  exact List.drop_left base ".mp3".toList

theorem pySuffix_cases (name : Str) :
    pySuffix name = [] ∨
    ∃ i, lastDotIdx name = some i ∧ 0 < i ∧ i + 1 < name.length ∧
      pySuffix name = name.drop i := by
  cases h : lastDotIdx name with
  | none => exact Or.inl (by simp only [pySuffix, h])
  | some i =>
      by_cases hg : 0 < i ∧ i + 1 < name.length
      · exact Or.inr ⟨i, rfl, hg.1, hg.2, by simp only [pySuffix, h]; rw [if_pos hg]⟩
      · exact Or.inl (by simp only [pySuffix, h]; rw [if_neg hg])

theorem pyStem_length_pos (name : Str) (h0 : name ≠ []) :
    0 < (pyStem name).length := by
  have hl : 0 < name.length := List.length_pos.mpr h0
  rcases pySuffix_cases name with h | ⟨i, -, hi0, hilt, hsuf⟩
  · unfold pyStem
    rw [h]
    simp [List.length_take]
    omega
  · unfold pyStem
    rw [hsuf, List.length_take, List.length_drop]
    have heq : name.length - (name.length - i) = i := by omega
    rw [heq]
    exact Nat.lt_min.mpr ⟨hi0, by omega⟩

theorem pyStem_ne_nil (name : Str) (h0 : name ≠ []) : pyStem name ≠ [] :=
  List.length_pos.mp (pyStem_length_pos name h0)

/-- C6 counterexample: the claim quantifies over every caller-supplied
output path with a non-`.mp3` extension, but on a path with an empty final
name component (`Path("").with_suffix` raises `ValueError`) normalization
errors out instead of producing a `.mp3` path. -/
theorem normalizeOutputPath_empty_counterexample :
    toLowerStr (pySuffix ([] : Str)) ≠ ".mp3".toList ∧
    normalizeOutputPath ([] : Str) = .error "empty name".toList :=
  ⟨by decide, rfl⟩

/-- C6 (amended): for every caller-supplied output path whose final name
component is non-empty and whose extension does not equal `.mp3`
case-insensitively, `create_mashup` normalizes the final output path to the
`.mp3` extension (the stem with `.mp3` appended, e.g. `out` yields
`out.mp3`); a path with an empty name component errors out instead. -/
theorem normalizeOutputPath_to_mp3 (name : Str) (h0 : name ≠ [])
    (h1 : toLowerStr (pySuffix name) ≠ ".mp3".toList) :
    normalizeOutputPath name = .ok (pyStem name ++ ".mp3".toList) ∧
    pySuffix (pyStem name ++ ".mp3".toList) = ".mp3".toList := by
  constructor
  · unfold normalizeOutputPath
    rw [if_neg h1]
    unfold withSuffix
    rw [if_neg h0]
    by_cases hs : pySuffix name = []
    · rw [if_pos hs]
      unfold pyStem
      rw [hs]
      simp
    · rw [if_neg hs]
      rfl
  · exact pySuffix_append_mp3 _ (pyStem_ne_nil name h0)

theorem normalizeOutputPath_to_mp3_witness :
    ("out".toList ≠ ([] : Str)) ∧
    toLowerStr (pySuffix "out".toList) ≠ ".mp3".toList ∧
    normalizeOutputPath "out".toList = .ok (pyStem "out".toList ++ ".mp3".toList) ∧
    pyStem "out".toList ++ ".mp3".toList = "out.mp3".toList :=
  ⟨by decide, by decide,
   (normalizeOutputPath_to_mp3 "out".toList (by decide) (by decide)).1,
   by decide⟩

/-- C9: the output-extension check is case-insensitive: every supplied path
whose suffix equals `.mp3` under lowercasing is kept unchanged, so the
returned final path's suffix is `.mp3` case-insensitively — but not
necessarily the lowercase `.mp3`, as the kept path `song.MP3` shows. -/
theorem normalizeOutputPath_case_insensitive (name : Str)
    (h : toLowerStr (pySuffix name) = ".mp3".toList) :
    normalizeOutputPath name = .ok name ∧
    ∃ other : Str, normalizeOutputPath other = .ok other ∧
      pySuffix other ≠ ".mp3".toList := by
  refine ⟨?_, ⟨"song.MP3".toList, by rfl, by decide⟩⟩
  unfold normalizeOutputPath
  rw [if_pos h]

theorem normalizeOutputPath_case_insensitive_witness :
    toLowerStr (pySuffix "song.MP3".toList) = ".mp3".toList ∧
    normalizeOutputPath "song.MP3".toList = .ok "song.MP3".toList :=
  ⟨by decide,
   (normalizeOutputPath_case_insensitive "song.MP3".toList (by decide)).1⟩

/-! ## C7: validation failures precede all external effects -/

/-- C7: for every request failing validation (non-numeric or non-positive or
too-small video count or clip duration, or blank singer), `create_mashup`
fails with the typed `InvalidRequest` error before any external I/O is
attempted — no backend location, workspace creation, search, or download
effect occurs. -/
theorem create_mashup_invalid_no_io (w : World) (singer : Str)
    (nRaw clipRaw : Option Int) (outName : Str)
    (h : nRaw = none ∨ (∃ v, nRaw = some v ∧ v ≤ 10) ∨ clipRaw = none ∨
         (∃ v, clipRaw = some v ∧ v ≤ 20) ∨ pyStrip singer = []) :
    ∃ msg, create_mashup w singer nRaw clipRaw outName =
      (.error (.invalidRequest msg), []) := by
  cases hn : coerce_positive_int nRaw "Number of videos".toList with
  | error m => exact ⟨m, by simp only [create_mashup, hn]⟩
  | ok n =>
      cases hc : coerce_positive_int clipRaw "Audio duration".toList with
      | error m => exact ⟨m, by simp only [create_mashup, hn, hc]⟩
      | ok clip =>
          cases hv : validate_inputs singer n clip with
          | error m => exact ⟨m, by simp only [create_mashup, hn, hc, hv]⟩
          | ok u =>
              exfalso
              cases u
              obtain ⟨hne, hnpos⟩ := coerce_positive_int_ok _ _ _ hn
              obtain ⟨hce, hcpos⟩ := coerce_positive_int_ok _ _ _ hc
              obtain ⟨hs, hn10, hc20⟩ := (validate_inputs_ok_iff singer n clip).mp hv
              rcases h with h | ⟨v, hv1, hv2⟩ | h | ⟨v, hv1, hv2⟩ | h
              · rw [h] at hne; cases hne
              · rw [hv1] at hne; injection hne with he; omega
              · rw [h] at hce; cases hce
              · rw [hv1] at hce; injection hce with he; omega
              · exact hs h

theorem create_mashup_invalid_no_io_witness :
    ((some (5 : Int) = none) ∨ (∃ v, some (5 : Int) = some v ∧ v ≤ 10) ∨
     ((some (25 : Int) : Option Int) = none) ∨
     (∃ v, (some (25 : Int) : Option Int) = some v ∧ v ≤ 20) ∨
     pyStrip "x".toList = []) ∧
    (∃ msg, create_mashup W0 "x".toList (some 5) (some 25) "out".toList =
      (.error (.invalidRequest msg), [])) :=
  ⟨Or.inr (Or.inl ⟨5, rfl, by norm_num⟩),
   create_mashup_invalid_no_io W0 "x".toList (some 5) (some 25) "out".toList
     (Or.inr (Or.inl ⟨5, rfl, by norm_num⟩))⟩

/-! ## C10: email validation -/

theorem mem_of_getLast?_eq (l : Str) (x : Char) (h : l.getLast? = some x) :
    x ∈ l := by
  obtain ⟨hne, hx⟩ := List.mem_getLast?_eq_getLast (show x ∈ l.getLast? from h)
  rw [hx]
  exact List.getLast_mem hne

theorem splitAtFirstAt_eq : ∀ s a d : Str, splitAtFirstAt s = some (a, d) →
    s = a ++ '@' :: d ∧ '@' ∉ a := by
  intro s
  induction s with
  | nil => intro a d h; cases h
  | cons c rest ih =>
      intro a d h
      by_cases hc : c = '@'
      · subst hc
        simp only [splitAtFirstAt] at h
        obtain ⟨rfl, rfl⟩ := h
        exact ⟨rfl, by simp⟩
      · simp only [splitAtFirstAt, if_neg hc] at h
        cases hs : splitAtFirstAt rest with
        | none => simp only [hs] at h; exact Option.noConfusion h
        | some p =>
            obtain ⟨a', d'⟩ := p
            simp only [hs, Option.some.injEq, Prod.mk.injEq] at h
            obtain ⟨h1, h2⟩ := h
            subst h1
            subst h2
            obtain ⟨ihe, ihm⟩ := ih a' d' hs
            refine ⟨by rw [ihe]; rfl, ?_⟩
            intro hmem
            rcases List.mem_cons.mp hmem with h' | h'
            · exact hc h'.symm
            · exact ihm h'

theorem noAtOrSpace_props (l : Str) (h : noAtOrSpace l = true) :
    '@' ∉ l ∧ ∀ c ∈ l, isPySpace c = false := by
  rw [noAtOrSpace, List.all_eq_true] at h
  constructor
  · intro hm
    have := h '@' hm
    simp at this
  · intro c hc
    have := h c hc
    simp only [Bool.and_eq_true, decide_eq_true_eq, Bool.not_eq_true'] at this
    exact this.2

theorem emailRegexMatch_parts (t : Str) (h : emailRegexMatch t = true) :
    ∃ a d, splitAtFirstAt t = some (a, d) ∧ a ≠ [] ∧ noAtOrSpace a = true ∧
      noAtOrSpace d = true ∧ hasInnerDot d = true := by
  cases hs : splitAtFirstAt t with
  | none => simp only [emailRegexMatch, hs] at h; exact Bool.noConfusion h
  | some p =>
      obtain ⟨a, d⟩ := p
      simp only [emailRegexMatch, hs, Bool.and_eq_true, decide_eq_true_eq] at h
      exact ⟨a, d, rfl, h.1.1.1, h.1.1.2, h.1.2, h.2⟩

theorem emailRegexMatch_no_space (t : Str) (h : emailRegexMatch t = true) :
    ∀ c ∈ t, isPySpace c = false := by
  obtain ⟨a, d, hs, -, hna, hnd, -⟩ := emailRegexMatch_parts t h
  obtain ⟨heq, -⟩ := splitAtFirstAt_eq t a d hs
  intro c hc
  rw [heq] at hc
  rcases List.mem_append.mp hc with h1 | h1
  · exact (noAtOrSpace_props a hna).2 c h1
  · rcases List.mem_cons.mp h1 with h2 | h2
    · subst h2; decide
    · exact (noAtOrSpace_props d hnd).2 c h2

theorem emailRegexMatch_count_at (t : Str) (h : emailRegexMatch t = true) :
    t.count '@' = 1 := by
  obtain ⟨a, d, hs, -, -, hnd, -⟩ := emailRegexMatch_parts t h
  obtain ⟨heq, hnotin⟩ := splitAtFirstAt_eq t a d hs
  have hda : '@' ∉ d := (noAtOrSpace_props d hnd).1
  rw [heq, List.count_append]
  rw [List.count_eq_zero.mpr hnotin]
  simp [List.count_cons, List.count_eq_zero.mpr hda]

theorem count_at_dropWhile (l : Str) :
    (l.dropWhile isPySpace).count '@' = l.count '@' := by
  induction l with
  | nil => rfl
  | cons c t ih =>
      by_cases hc : isPySpace c = true
      · have hcne : ('@' : Char) ≠ c := by
          intro he
          rw [← he] at hc
          exact absurd hc (by decide)
        rw [List.dropWhile_cons, if_pos hc, ih, List.count_cons_of_ne hcne]
      · rw [List.dropWhile_cons, if_neg hc]

theorem count_at_pyStrip (s : Str) : (pyStrip s).count '@' = s.count '@' := by
  unfold pyStrip stripRight stripLeft
  rw [List.count_reverse, count_at_dropWhile, List.count_reverse, count_at_dropWhile]

theorem dropWhile_append_of_all (l₁ l₂ : Str) (h : l₁.all isPySpace = true) :
    (l₁ ++ l₂).dropWhile isPySpace = l₂.dropWhile isPySpace := by
  induction l₁ with
  | nil => rfl
  | cons c t ih =>
      simp only [List.all_cons, Bool.and_eq_true] at h
      rw [List.cons_append, List.dropWhile_cons, if_pos h.1]
      exact ih h.2

theorem pyStrip_wrap (sp1 sp2 core : Str)
    (h1 : sp1.all isPySpace = true) (h2 : sp2.all isPySpace = true)
    (hne : core ≠ [])
    (hhead : ∀ x, core.head? = some x → isPySpace x = false)
    (hlast : ∀ x, core.getLast? = some x → isPySpace x = false) :
    pyStrip (sp1 ++ core ++ sp2) = core := by
  obtain ⟨c0, t, rfl⟩ := List.exists_cons_of_ne_nil hne
  have hh : isPySpace c0 = false := hhead c0 rfl
  have hL : stripLeft (sp1 ++ (c0 :: t) ++ sp2) = (c0 :: t) ++ sp2 := by
    rw [List.append_assoc]
    unfold stripLeft
    rw [dropWhile_append_of_all sp1 _ h1, List.cons_append, List.dropWhile_cons,
      if_neg (by simp [hh])]
  unfold pyStrip
  rw [hL]
  unfold stripRight
  rw [List.reverse_append,
    dropWhile_append_of_all sp2.reverse _ (by rwa [List.all_reverse])]
  have hrne : (c0 :: t).reverse ≠ [] := by simp
  obtain ⟨x, xs, hx⟩ := List.exists_cons_of_ne_nil hrne
  have hxl : isPySpace x = false := by
    apply hlast
    rw [← List.head?_reverse, hx]
    rfl
  rw [hx, List.dropWhile_cons, if_neg (by simp [hxl]), ← hx, List.reverse_reverse]

/-- C10: `is_valid_email` strips surrounding whitespace before matching, so
every matching address surrounded by whitespace is accepted; it rejects the
empty string, every string whose stripped form still contains whitespace,
every string with more than one `@` or with no `@`, and every string whose
part after the `@` contains no dot. -/
theorem is_valid_email_spec (sp1 sp2 core s a d : Str) (x : Char) :
    (sp1.all isPySpace = true → sp2.all isPySpace = true →
      emailRegexMatch core = true →
      is_valid_email (sp1 ++ core ++ sp2) = true) ∧
    (is_valid_email [] = false) ∧
    (x ∈ pyStrip s → isPySpace x = true → is_valid_email s = false) ∧
    (1 < s.count '@' → is_valid_email s = false) ∧
    (s.count '@' = 0 → is_valid_email s = false) ∧
    (splitAtFirstAt (pyStrip s) = some (a, d) → '.' ∉ d →
      is_valid_email s = false) := by
  have match_of_valid : ∀ u : Str, is_valid_email u = true →
      emailRegexMatch (pyStrip u) = true := by
    intro u hu
    unfold is_valid_email at hu
    rw [Bool.and_eq_true] at hu
    exact hu.2
  refine ⟨?_, rfl, ?_, ?_, ?_, ?_⟩
  · intro h1 h2 h3
    have hcne : core ≠ [] := by
      intro he
      subst he
      exact absurd h3 (by decide)
    have hall := emailRegexMatch_no_space core h3
    have hstrip := pyStrip_wrap sp1 sp2 core h1 h2 hcne
      (fun y hy => hall y (List.mem_of_mem_head? hy))
      (fun y hy => hall y (mem_of_getLast?_eq core y hy))
    have hne2 : sp1 ++ core ++ sp2 ≠ [] := by
      intro he
      rcases List.append_eq_nil.mp he with ⟨he1, -⟩
      rcases List.append_eq_nil.mp he1 with ⟨-, he3⟩
      exact hcne he3
    unfold is_valid_email
    rw [hstrip]
    simp only [h3, Bool.and_true, decide_eq_true_eq]
    exact fun he => hne2 he
  · intro hc hsp
    cases hres : is_valid_email s with
    | false => rfl
    | true =>
        exfalso
        have hm := match_of_valid s hres
        exact absurd (emailRegexMatch_no_space _ hm x hc) (by simp [hsp])
  · intro hgt
    cases hres : is_valid_email s with
    | false => rfl
    | true =>
        exfalso
        have hm := match_of_valid s hres
        have h1 := emailRegexMatch_count_at _ hm
        rw [count_at_pyStrip] at h1
        omega
  · intro hz
    cases hres : is_valid_email s with
    | false => rfl
    | true =>
        exfalso
        have hm := match_of_valid s hres
        have h1 := emailRegexMatch_count_at _ hm
        rw [count_at_pyStrip] at h1
        omega
  · intro hsplit hnod
    cases hres : is_valid_email s with
    | false => rfl
    | true =>
        exfalso
        have hm := match_of_valid s hres
        obtain ⟨a', d', hs', -, -, -, hdot⟩ := emailRegexMatch_parts _ hm
        rw [hsplit] at hs'
        injection hs' with hp
        obtain ⟨-, hd⟩ := Prod.mk.injEq _ _ _ _ ▸ hp
        have hdotmem : '.' ∈ d' := by
          have := of_decide_eq_true hdot
          exact List.drop_subset 1 d' (List.dropLast_subset _ this)
        rw [← hd] at hdotmem
        exact hnod hdotmem

theorem is_valid_email_spec_witness :
    is_valid_email (" ".toList ++ "a@b.c".toList ++ " ".toList) = true ∧
    is_valid_email [] = false ∧
    is_valid_email "a b@c.d".toList = false ∧
    is_valid_email "a@@b.c".toList = false ∧
    is_valid_email "abc.d".toList = false ∧
    is_valid_email "a@bcd".toList = false :=
  ⟨(is_valid_email_spec " ".toList " ".toList "a@b.c".toList [] [] [] ' ').1
     (by decide) (by decide) (by decide),
   (is_valid_email_spec [] [] [] [] [] [] ' ').2.1,
   (is_valid_email_spec [] [] [] "a b@c.d".toList [] [] ' ').2.2.1
     (by decide) (by decide),
   (is_valid_email_spec [] [] [] "a@@b.c".toList [] [] ' ').2.2.2.1 (by decide),
   (is_valid_email_spec [] [] [] "abc.d".toList [] [] ' ').2.2.2.2.1 (by decide),
   (is_valid_email_spec [] [] [] "a@bcd".toList "a".toList "bcd".toList ' ').2.2.2.2.2
     (by decide) (by decide)⟩

end Mashup
